import Mathlib

/-!
# Breakout: the simulation step of `src/breakout.c`

The whole program is the function `main`.  Its game state is three records
(`Paddle`, `Ball`, `Brick`) and a heap array of `BRICK_ROWS * BRICK_COLUMNS`
bricks; one iteration of the main loop moves the paddle, integrates the ball,
runs four wall checks, the paddle check and the brick scan, then draws.

Embedding conventions.

* The C `float` fields are rational numbers and `+`, `-`, `*`, `/` on them are
  exact: rounding, infinities and NaN are outside this model.  The order
  comparisons and the assignments are the source's, one for one.
* The `int` macros are `Int` constants; they are cast where the source
  promotes them to `float`, and `WINDOW_WIDTH / 2` is the integer division it
  is in the source.
* `isVisible` is the C `int` it is in the source; a brick is visible when the
  field is not `0`.
* The statements of one loop iteration are separate functions, composed in
  source order by `tick`.
-/

namespace Breakout

/-! ## Constants (lines 8-19) -/

def WINDOW_WIDTH : Int := 800
def WINDOW_HEIGHT : Int := 600
def PADDLE_WIDTH : Int := 100
def PADDLE_HEIGHT : Int := 20
def BALL_RADIUS : Int := 10
def BRICK_ROWS : Nat := 5
def BRICK_COLUMNS : Nat := 10
def BRICK_WIDTH : Int := 60
def BRICK_HEIGHT : Int := 20

/-! ## Records (lines 21-37) -/

structure Paddle where
  x : ℚ
  y : ℚ
  width : ℚ
  height : ℚ
  speed : ℚ
  deriving DecidableEq

structure Ball where
  x : ℚ
  y : ℚ
  radius : ℚ
  speedX : ℚ
  speedY : ℚ
  deriving DecidableEq

structure Brick where
  x : ℚ
  y : ℚ
  width : ℚ
  height : ℚ
  isVisible : Int
  deriving DecidableEq

/-- The three game objects `main` keeps across loop iterations. -/
structure Game where
  paddle : Paddle
  ball : Ball
  bricks : List Brick
  deriving DecidableEq

/-! ## Initialisation (lines 78-124) -/

/-- Paddle as set up at lines 79-83, before the difficulty scaling. -/
def initPaddle : Paddle :=
  { width := PADDLE_WIDTH
    height := PADDLE_HEIGHT
    x := ((WINDOW_WIDTH : ℚ) - (PADDLE_WIDTH : ℚ)) / 2
    y := (WINDOW_HEIGHT : ℚ) - (PADDLE_HEIGHT : ℚ) - 10
    speed := 400 }

/-- Ball as set up at lines 86-90, before the difficulty scaling. -/
def initBall : Ball :=
  { radius := BALL_RADIUS
    x := ((WINDOW_WIDTH / 2 : Int) : ℚ)
    y := ((WINDOW_HEIGHT / 2 : Int) : ℚ)
    speedX := 200
    speedY := -200 }

/-- Brick written to `bricks[i * BRICK_COLUMNS + j]` at lines 95-100. -/
def initBrick (i j : Nat) : Brick :=
  { width := BRICK_WIDTH
    height := BRICK_HEIGHT
    x := (((j : Int) * (BRICK_WIDTH + 10) + 35 : Int) : ℚ)
    y := (((i : Int) * (BRICK_HEIGHT + 5) + 50 : Int) : ℚ)
    isVisible := 1 }

/-- The nested loops of lines 93-102: row `i` outermost, column `j` innermost,
so the brick of row `i` and column `j` lands at index `i * BRICK_COLUMNS + j`. -/
def initBricks : List Brick :=
  ((List.range BRICK_ROWS).map fun i =>
    (List.range BRICK_COLUMNS).map fun j => initBrick i j).flatten

/-- The switch of lines 105-119.  `none` is `argc <= 1`; `some n` is the value
`atoi(argv[1])` returned. -/
def difficultyMultiplier (arg : Option Int) : ℚ :=
  match arg with
  | none => 1.0
  | some difficulty =>
    if difficulty = 1 then 0.8
    else if difficulty = 2 then 1.0
    else if difficulty = 3 then 1.2
    else 1.0

/-- State on entry to the main loop: lines 78-102, then the scaling of
lines 122-124. -/
def initGame (arg : Option Int) : Game :=
  { paddle := { initPaddle with speed := initPaddle.speed * difficultyMultiplier arg }
    ball := { initBall with
      speedX := initBall.speedX * difficultyMultiplier arg
      speedY := initBall.speedY * difficultyMultiplier arg }
    bricks := initBricks }

/-! ## One loop iteration (lines 159-217) -/

/-- Lines 159-162, given that `state[SDL_SCANCODE_LEFT]` is set. -/
def moveLeft (dt : ℚ) (p : Paddle) : Paddle :=
  let p1 := { p with x := p.x - p.speed * dt }
  if p1.x < 0 then { p1 with x := 0 } else p1

/-- Lines 163-166, given that `state[SDL_SCANCODE_RIGHT]` is set. -/
def moveRight (dt : ℚ) (p : Paddle) : Paddle :=
  let p1 := { p with x := p.x + p.speed * dt }
  if p1.x > (WINDOW_WIDTH : ℚ) - p1.width then
    { p1 with x := (WINDOW_WIDTH : ℚ) - p1.width }
  else p1

/-- Lines 159-166: the two key tests, left first. -/
def movePaddle (left right : Bool) (dt : ℚ) (p : Paddle) : Paddle :=
  let p1 := if left then moveLeft dt p else p
  if right then moveRight dt p1 else p1

/-- Lines 169-170. -/
def integrate (dt : ℚ) (b : Ball) : Ball :=
  { b with x := b.x + b.speedX * dt, y := b.y + b.speedY * dt }

/-- Lines 173-176. -/
def wallLeft (b : Ball) : Ball :=
  if b.x - b.radius < 0 then { b with speedX := -b.speedX, x := b.radius } else b

/-- Lines 177-180. -/
def wallRight (b : Ball) : Ball :=
  if b.x + b.radius > (WINDOW_WIDTH : ℚ) then
    { b with speedX := -b.speedX, x := (WINDOW_WIDTH : ℚ) - b.radius }
  else b

/-- Lines 181-184. -/
def wallTop (b : Ball) : Ball :=
  if b.y - b.radius < 0 then { b with speedY := -b.speedY, y := b.radius } else b

/-- Lines 185-190: the ball is lost. -/
def wallBottom (b : Ball) : Ball :=
  if b.y - b.radius > (WINDOW_HEIGHT : ℚ) then
    { b with x := ((WINDOW_WIDTH / 2 : Int) : ℚ), y := ((WINDOW_HEIGHT / 2 : Int) : ℚ) }
  else b

/-- Lines 173-190: the four wall checks in source order. -/
def walls (b : Ball) : Ball :=
  wallBottom (wallTop (wallRight (wallLeft b)))

/-- Condition of the `if` at lines 193-196. -/
def paddleHit (p : Paddle) (b : Ball) : Prop :=
  b.y + b.radius ≥ p.y ∧ b.x ≥ p.x ∧ b.x ≤ p.x + p.width ∧ b.speedY > 0

instance (p : Paddle) (b : Ball) : Decidable (paddleHit p b) := by
  unfold paddleHit; infer_instance

/-- Lines 193-199. -/
def paddleCollision (p : Paddle) (b : Ball) : Ball :=
  if paddleHit p b then { b with speedY := -b.speedY, y := p.y - b.radius } else b

/-- Geometric part of the test at lines 205-208: the brick rectangle meets the
square `[x - radius, x + radius] x [y - radius, y + radius]`. -/
def overlaps (b : Ball) (br : Brick) : Prop :=
  b.x + b.radius ≥ br.x ∧ b.x - b.radius ≤ br.x + br.width ∧
  b.y + b.radius ≥ br.y ∧ b.y - b.radius ≤ br.y + br.height

instance (b : Ball) (br : Brick) : Decidable (overlaps b br) := by
  unfold overlaps; infer_instance

/-- Condition of the `if` at lines 204-208. -/
def brickHit (b : Ball) (br : Brick) : Prop :=
  br.isVisible ≠ 0 ∧ overlaps b br

instance (b : Ball) (br : Brick) : Decidable (brickHit b br) := by
  unfold brickHit; infer_instance

/-- The `for` loop of lines 202-217 with `n` iterations left and loop counter
`i`; the source runs it as `brickLoop ball bricks (BRICK_ROWS * BRICK_COLUMNS) 0`.
The first hit clears the brick, negates `speedY` and leaves the loop.  Reading
past the end of the array does not happen on the 50-element array of the
source; here it ends the scan. -/
def brickLoop (b : Ball) (bricks : List Brick) : Nat → Nat → Ball × List Brick
  | 0, _ => (b, bricks)
  | n + 1, i =>
    match bricks[i]? with
    | none => (b, bricks)
    | some br =>
      if brickHit b br then
        ({ b with speedY := -b.speedY }, bricks.set i { br with isVisible := 0 })
      else brickLoop b bricks n (i + 1)

/-- Lines 202-217. -/
def brickStep (b : Ball) (bricks : List Brick) : Ball × List Brick :=
  brickLoop b bricks (BRICK_ROWS * BRICK_COLUMNS) 0

/-- Lines 159-199: the ball as the brick scan finds it, after the paddle has
moved, the ball has been integrated and the wall and paddle checks are done. -/
def ballAfterPaddle (left right : Bool) (dt : ℚ) (g : Game) : Ball :=
  paddleCollision (movePaddle left right dt g.paddle) (walls (integrate dt g.ball))

/-- Lines 159-217: what one loop iteration does to the game objects, given the
two key states and `deltaTime`. -/
def tick (left right : Bool) (dt : ℚ) (g : Game) : Game :=
  let r := brickStep (ballAfterPaddle left right dt g) g.bricks
  { paddle := movePaddle left right dt g.paddle, ball := r.1, bricks := r.2 }

/-- Keys and `deltaTime` read by one loop iteration. -/
structure Input where
  left : Bool
  right : Bool
  dt : ℚ

/-- The state after the loop iterations fed by `inputs`, oldest first. -/
def run (arg : Option Int) (inputs : List Input) : Game :=
  inputs.foldl (fun g inp => tick inp.left inp.right inp.dt g) (initGame arg)

/-- Number of bricks drawn at lines 241-257. -/
def visibleCount (bricks : List Brick) : Nat :=
  bricks.countP fun br => br.isVisible ≠ 0

/-- Number of positions holding a visible brick in `before` and an invisible
one in `after`. -/
def destroyedCount (before after : List Brick) : Nat :=
  (List.zip before after).countP fun pr => pr.1.isVisible ≠ 0 ∧ pr.2.isVisible = 0

/-! ## Predicates and inputs used by the statements -/

/-- What the paddle keeps between loop iterations: it lies in the arena, it
has the width of the macro and it moves at a non-negative speed. -/
def PaddleInv (p : Paddle) : Prop :=
  0 ≤ p.x ∧ p.x ≤ (WINDOW_WIDTH : ℚ) - p.width ∧ p.width = (PADDLE_WIDTH : ℚ) ∧ 0 ≤ p.speed

/-- A run at hard difficulty: the right key held for two seconds, then both
keys for half a second, then the left key for three seconds. -/
def paddleRun : List Input :=
  [⟨false, true, 2⟩, ⟨true, true, 1 / 2⟩, ⟨true, false, 3⟩]

/-- The initial game with brick 0 already cleared and the ball's square lying
over that brick only. -/
def clearedGame : Game :=
  { initGame none with
    ball := ⟨50, 60, 10, 200, -200⟩
    bricks := initBricks.set 0 { initBrick 0 0 with isVisible := 0 } }

/-- The initial game with the ball's square lying over bricks 1, 2, 11 and 12
and moving up. -/
def crowdedGame : Game :=
  { initGame none with ball := ⟨170, 145 / 2, 10, 200, -200⟩ }

/-- Lines 169-184: the ball as the bottom check of line 185 finds it, after
integration and the left, right and top wall checks. -/
def ballAtBottomCheck (dt : ℚ) (b : Ball) : Ball :=
  wallTop (wallRight (wallLeft (integrate dt b)))

/-- What the ball keeps between loop iterations: the radius of the macro, a
centre inside the side and top walls and not more than one radius below the
bottom edge. -/
def BallInv (b : Ball) : Prop :=
  b.radius = 10 ∧ 10 ≤ b.x ∧ b.x ≤ 790 ∧ 10 ≤ b.y ∧ b.y ≤ 610

/-- What the whole state keeps between loop iterations besides `PaddleInv`:
`BallInv`, the paddle's height above the bottom edge, and bricks that end at
`y = 170` or higher up. -/
def GameInv (g : Game) : Prop :=
  BallInv g.ball ∧ g.paddle.y = 570 ∧ ∀ br ∈ g.bricks, br.y + br.height ≤ 170

/-- A run at medium difficulty with no key held: 22 loop iterations of an
eighth of a second each.  The ball clears brick 45, bounces off the right wall
and passes the paddle on its right. -/
def lostRun : List Input :=
  List.replicate 22 ⟨false, false, 1 / 8⟩

/-- Line 134. -/
def FPS : Int := 60

/-- Line 135: an `int` division. -/
def frameDelay : Int := 1000 / FPS

/-- Line 263: the `Uint32` difference `SDL_GetTicks() - frameStart`, stored in
the `int` `frameTime`.  `now` is the value `SDL_GetTicks()` returned. -/
def frameTime (frameStart now : Nat) : Int :=
  let d : Int := ((now : Int) - (frameStart : Int)) % 2 ^ 32
  if d < 2 ^ 31 then d else d - 2 ^ 32

/-- Lines 264-266: `some d` when `SDL_Delay` is called, with the `Uint32`
argument `d` it receives; `none` when it is not called. -/
def frameSleep (t : Int) : Option Nat :=
  if frameDelay > t then some (((frameDelay - t) % 2 ^ 32).toNat) else none

/-- Arguments `r, g, b, a` of `SDL_SetRenderDrawColor`. -/
structure Color where
  r : Nat
  g : Nat
  b : Nat
  a : Nat
  deriving DecidableEq

/-- The switch of lines 246-252 for brick index `i`.  It has no default
label: on a value outside 0..4 the draw colour would stay `current`, the one in
force before the switch. -/
def brickColor (current : Color) (i : Nat) : Color :=
  match i / BRICK_COLUMNS % 5 with
  | 0 => ⟨255, 0, 0, 255⟩
  | 1 => ⟨0, 255, 0, 255⟩
  | 2 => ⟨0, 0, 255, 255⟩
  | 3 => ⟨255, 255, 0, 255⟩
  | 4 => ⟨255, 165, 0, 255⟩
  | _ => current

/-- The palette as the specification lists it: red, green, blue, yellow,
orange, all opaque. -/
def palette : List Color :=
  [⟨255, 0, 0, 255⟩, ⟨0, 255, 0, 255⟩, ⟨0, 0, 255, 255⟩, ⟨255, 255, 0, 255⟩,
   ⟨255, 165, 0, 255⟩]

/-! # Theorems -/

/-! ## Paddle -/

theorem difficultyMultiplier_nonneg (arg : Option Int) : 0 ≤ difficultyMultiplier arg := by
  unfold difficultyMultiplier
  cases arg with
  | none => norm_num
  | some n => dsimp only; split_ifs <;> norm_num

theorem initGame_paddleInv (arg : Option Int) : PaddleInv (initGame arg).paddle := by
  have hm := difficultyMultiplier_nonneg arg
  refine ⟨?_, ?_, ?_, ?_⟩
  · norm_num [initGame, initPaddle, WINDOW_WIDTH, PADDLE_WIDTH]
  · norm_num [initGame, initPaddle, WINDOW_WIDTH, PADDLE_WIDTH]
  · simp [initGame, initPaddle]
  · simp only [initGame, initPaddle]
    positivity

theorem moveLeft_inv (dt : ℚ) (hdt : 0 ≤ dt) (p : Paddle) (hp : PaddleInv p) :
    PaddleInv (moveLeft dt p) := by
  obtain ⟨h0, h1, hw, hs⟩ := hp
  have hmove : 0 ≤ p.speed * dt := mul_nonneg hs hdt
  unfold moveLeft
  dsimp only
  split_ifs with h
  · refine ⟨le_refl _, ?_, hw, hs⟩
    dsimp only
    linarith
  · refine ⟨not_lt.mp h, ?_, hw, hs⟩
    dsimp only
    linarith

theorem moveRight_inv (dt : ℚ) (hdt : 0 ≤ dt) (p : Paddle) (hp : PaddleInv p) :
    PaddleInv (moveRight dt p) := by
  obtain ⟨h0, h1, hw, hs⟩ := hp
  have hmove : 0 ≤ p.speed * dt := mul_nonneg hs hdt
  unfold moveRight
  dsimp only
  split_ifs with h
  · refine ⟨?_, le_refl _, hw, hs⟩
    dsimp only
    linarith
  · refine ⟨?_, not_lt.mp h, hw, hs⟩
    dsimp only
    linarith

theorem movePaddle_inv (left right : Bool) (dt : ℚ) (hdt : 0 ≤ dt) (p : Paddle)
    (hp : PaddleInv p) : PaddleInv (movePaddle left right dt p) := by
  unfold movePaddle
  cases left <;> cases right <;> simp only [Bool.false_eq_true, if_true, if_false]
  · exact hp
  · exact moveRight_inv dt hdt p hp
  · exact moveLeft_inv dt hdt p hp
  · exact moveRight_inv dt hdt _ (moveLeft_inv dt hdt p hp)

theorem tick_paddle (left right : Bool) (dt : ℚ) (g : Game) :
    (tick left right dt g).paddle = movePaddle left right dt g.paddle := rfl

theorem foldl_tick_paddleInv (inputs : List Input) :
    ∀ g : Game, PaddleInv g.paddle → (∀ inp ∈ inputs, 0 ≤ inp.dt) →
      PaddleInv (inputs.foldl (fun g inp => tick inp.left inp.right inp.dt g) g).paddle := by
  induction inputs with
  | nil => intro g hg _; exact hg
  | cons inp rest ih =>
    intro g hg hdt
    rw [List.foldl_cons]
    apply ih
    · rw [tick_paddle]
      exact movePaddle_inv _ _ _ (hdt inp (List.mem_cons_self _ _)) _ hg
    · intro inp2 h2
      exact hdt inp2 (List.mem_cons_of_mem _ h2)

/-- C1. In every state reached from the initial state of any difficulty by
loop iterations whose `deltaTime` is not negative, whatever keys are held, the
paddle satisfies `0 <= paddle.x <= WINDOW_WIDTH - paddle.width`, and that
upper bound is 700. -/
theorem paddle_bounds_reachable (arg : Option Int) (inputs : List Input)
    (hdt : ∀ inp ∈ inputs, 0 ≤ inp.dt) :
    0 ≤ (run arg inputs).paddle.x ∧
    (run arg inputs).paddle.x ≤ (WINDOW_WIDTH : ℚ) - (run arg inputs).paddle.width ∧
    (WINDOW_WIDTH : ℚ) - (run arg inputs).paddle.width = 700 := by
  have h := foldl_tick_paddleInv inputs (initGame arg) (initGame_paddleInv arg) hdt
  obtain ⟨h0, h1, hw, _⟩ := h
  refine ⟨h0, h1, ?_⟩
  unfold run
  rw [hw]
  norm_num [WINDOW_WIDTH, PADDLE_WIDTH]

theorem paddle_bounds_reachable_witness :
    (∀ inp ∈ paddleRun, 0 ≤ inp.dt) ∧
    0 ≤ (run (some 3) paddleRun).paddle.x ∧
    (run (some 3) paddleRun).paddle.x ≤
      (WINDOW_WIDTH : ℚ) - (run (some 3) paddleRun).paddle.width ∧
    (WINDOW_WIDTH : ℚ) - (run (some 3) paddleRun).paddle.width = 700 :=
  ⟨by simp [paddleRun], paddle_bounds_reachable (some 3) paddleRun (by simp [paddleRun])⟩

/-- The paddle of that run is driven into the right clamp, stays there while
both keys are held, and ends in the left clamp. -/
theorem paddleRun_positions :
    (run (some 3) (paddleRun.take 1)).paddle.x = 700 ∧
    (run (some 3) (paddleRun.take 2)).paddle.x = 700 ∧
    (run (some 3) paddleRun).paddle.x = 0 := by
  decide!

/-! ## Walls -/

theorem wallLeft_radius (b : Ball) : (wallLeft b).radius = b.radius := by
  unfold wallLeft; split_ifs <;> rfl

theorem wallRight_radius (b : Ball) : (wallRight b).radius = b.radius := by
  unfold wallRight; split_ifs <;> rfl

theorem wallTop_radius (b : Ball) : (wallTop b).radius = b.radius := by
  unfold wallTop; split_ifs <;> rfl

theorem wallBottom_radius (b : Ball) : (wallBottom b).radius = b.radius := by
  unfold wallBottom; split_ifs <;> rfl

theorem wallLeft_x_ge (b : Ball) : b.radius ≤ (wallLeft b).x := by
  unfold wallLeft
  split_ifs with h
  · exact le_refl _
  · linarith [not_lt.mp h]

theorem wallRight_x_bounds (b : Ball) (hr : b.radius = (BALL_RADIUS : ℚ))
    (hx : b.radius ≤ b.x) :
    b.radius ≤ (wallRight b).x ∧ (wallRight b).x ≤ (WINDOW_WIDTH : ℚ) - b.radius := by
  unfold wallRight
  split_ifs with h
  · dsimp only
    rw [hr]
    norm_num [WINDOW_WIDTH, BALL_RADIUS]
  · exact ⟨hx, by linarith [not_lt.mp h]⟩

theorem wallTop_x (b : Ball) : (wallTop b).x = b.x := by
  unfold wallTop; split_ifs <;> rfl

theorem wallTop_y_ge (b : Ball) : b.radius ≤ (wallTop b).y := by
  unfold wallTop
  split_ifs with h
  · exact le_refl _
  · linarith [not_lt.mp h]

theorem wallBottom_bounds (b : Ball) (hr : b.radius = (BALL_RADIUS : ℚ))
    (hx : b.radius ≤ b.x ∧ b.x ≤ (WINDOW_WIDTH : ℚ) - b.radius) (hy : b.radius ≤ b.y) :
    b.radius ≤ (wallBottom b).x ∧ (wallBottom b).x ≤ (WINDOW_WIDTH : ℚ) - b.radius ∧
      b.radius ≤ (wallBottom b).y := by
  unfold wallBottom
  split_ifs with h
  · dsimp only
    rw [hr]
    norm_num [WINDOW_WIDTH, WINDOW_HEIGHT, BALL_RADIUS]
  · exact ⟨hx.1, hx.2, hy⟩

theorem walls_bounds (b : Ball) (hr : b.radius = (BALL_RADIUS : ℚ)) :
    b.radius ≤ (walls b).x ∧ (walls b).x ≤ (WINDOW_WIDTH : ℚ) - b.radius ∧
      b.radius ≤ (walls b).y := by
  have hl := wallLeft_x_ge b
  have hlr := wallLeft_radius b
  have hrr := wallRight_radius (wallLeft b)
  have htr := wallTop_radius (wallRight (wallLeft b))
  have h2 := wallRight_x_bounds (wallLeft b) (hlr.trans hr) (hlr ▸ hl)
  have h3 := wallTop_y_ge (wallRight (wallLeft b))
  have h3x := wallTop_x (wallRight (wallLeft b))
  have hrad : (wallTop (wallRight (wallLeft b))).radius = b.radius := by
    rw [htr, hrr, hlr]
  have h4 := wallBottom_bounds (wallTop (wallRight (wallLeft b))) (hrad.trans hr)
    (by rw [hrad, h3x]; rw [hlr] at h2; exact h2)
    (by rw [hrad]; rw [hrr, hlr] at h3; exact h3)
  rw [hrad] at h4
  exact h4

/-- C2. For every ball of the program's radius (`BALL_RADIUS`, 10) and every
`deltaTime`, the ball centre right after the four wall checks of a loop
iteration satisfies `10 <= ball.x <= 790` and `ball.y >= 10`. -/
theorem ball_bounds_after_walls (b : Ball) (dt : ℚ) (hr : b.radius = (BALL_RADIUS : ℚ)) :
    10 ≤ (walls (integrate dt b)).x ∧ (walls (integrate dt b)).x ≤ 790 ∧
      10 ≤ (walls (integrate dt b)).y := by
  have h := walls_bounds (integrate dt b) hr
  have hr2 : (integrate dt b).radius = 10 := by
    rw [show (integrate dt b).radius = b.radius from rfl, hr]
    norm_num [BALL_RADIUS]
  rw [hr2] at h
  norm_num [WINDOW_WIDTH] at h
  exact h

theorem ball_bounds_after_walls_witness :
    (initGame none).ball.radius = (BALL_RADIUS : ℚ) ∧
    10 ≤ (walls (integrate 3 (initGame none).ball)).x ∧
    (walls (integrate 3 (initGame none).ball)).x ≤ 790 ∧
    10 ≤ (walls (integrate 3 (initGame none).ball)).y :=
  ⟨rfl, ball_bounds_after_walls (initGame none).ball 3 rfl⟩

/-- C3. For every ball, when `ball.y - radius > WINDOW_HEIGHT` (600) at the
bottom check the ball is put at exactly (400, 300), the integer halves of the
window size, and `speedX`, `speedY` and `radius` keep the values they had right
before; when `ball.y - radius <= 600` the bottom check changes nothing. -/
theorem wallBottom_spec (b : Ball) :
    (b.y - b.radius > 600 →
      (wallBottom b).x = 400 ∧ (wallBottom b).y = 300 ∧
      (wallBottom b).speedX = b.speedX ∧ (wallBottom b).speedY = b.speedY ∧
      (wallBottom b).radius = b.radius) ∧
    (b.y - b.radius ≤ 600 → wallBottom b = b) := by
  have hH : ((WINDOW_HEIGHT : Int) : ℚ) = 600 := by norm_num [WINDOW_HEIGHT]
  constructor
  · intro h
    unfold wallBottom
    rw [if_pos (by rw [hH]; exact h)]
    norm_num [WINDOW_WIDTH, WINDOW_HEIGHT]
  · intro h
    unfold wallBottom
    rw [if_neg (by rw [hH]; exact not_lt.mpr h)]

/-- A ball 611 below the top edge is lost and re-centred with its velocity
kept; a ball 610 below the top edge is left alone. -/
theorem wallBottom_spec_witness :
    (wallBottom ⟨123, 611, 10, -200, 200⟩ = ⟨400, 300, 10, -200, 200⟩) ∧
    (wallBottom ⟨123, 610, 10, -200, 200⟩ = ⟨123, 610, 10, -200, 200⟩) := by
  have h1 := (wallBottom_spec ⟨123, 611, 10, -200, 200⟩).1 (by norm_num)
  have h2 := (wallBottom_spec ⟨123, 610, 10, -200, 200⟩).2 (by norm_num)
  refine ⟨?_, h2⟩
  obtain ⟨hx, hy, hsx, hsy, hr⟩ := h1
  rw [Ball.mk.injEq]
  exact ⟨hx, hy, hr, hsx, hsy⟩

/-! ## Brick scan -/

theorem brickLoop_miss (b : Ball) (bricks : List Brick) (n : Nat) :
    ∀ i : Nat,
      (∀ j brj, i ≤ j → j < i + n → bricks[j]? = some brj → ¬ brickHit b brj) →
      brickLoop b bricks n i = (b, bricks) := by
  induction n with
  | zero => intro i _; rfl
  | succ n ih =>
    intro i h
    unfold brickLoop
    cases hbr : bricks[i]? with
    | none => rfl
    | some br =>
      dsimp only
      rw [if_neg (h i br (le_refl i) (by omega) hbr)]
      exact ih (i + 1) fun j brj h1 h2 => h j brj (by omega) (by omega)

theorem brickLoop_hit (b : Ball) (bricks : List Brick) (k : Nat) (br : Brick)
    (hbr : bricks[k]? = some br) (hhit : brickHit b br) (n : Nat) :
    ∀ i : Nat, i ≤ k → k < i + n →
      (∀ j brj, i ≤ j → j < k → bricks[j]? = some brj → ¬ brickHit b brj) →
      brickLoop b bricks n i =
        ({ b with speedY := -b.speedY }, bricks.set k { br with isVisible := 0 }) := by
  induction n with
  | zero => intro i h1 h2; omega
  | succ n ih =>
    intro i h1 h2 hmin
    unfold brickLoop
    rcases Nat.eq_or_lt_of_le h1 with heq | hlt
    · subst heq
      rw [hbr]
      dsimp only
      rw [if_pos hhit]
    · have hi : i < bricks.length := by
        have hk : k < bricks.length := by
          rcases List.getElem?_eq_some.mp hbr with ⟨hk, _⟩
          exact hk
        omega
      rw [List.getElem?_eq_getElem hi]
      dsimp only
      rw [if_neg (hmin i bricks[i] (le_refl i) hlt (List.getElem?_eq_getElem hi))]
      exact ih (i + 1) (by omega) (by omega) fun j brj h3 h4 => hmin j brj (by omega) h4

/-- The scan either changes nothing or clears one brick it hit and negates
`speedY`. -/
theorem brickLoop_cases (b : Ball) (bricks : List Brick) (n : Nat) :
    ∀ i : Nat,
      brickLoop b bricks n i = (b, bricks) ∨
      ∃ k br, i ≤ k ∧ k < i + n ∧ bricks[k]? = some br ∧ brickHit b br ∧
        brickLoop b bricks n i =
          ({ b with speedY := -b.speedY }, bricks.set k { br with isVisible := 0 }) := by
  induction n with
  | zero => intro i; exact Or.inl rfl
  | succ n ih =>
    intro i
    unfold brickLoop
    cases hbr : bricks[i]? with
    | none => exact Or.inl rfl
    | some br =>
      dsimp only
      by_cases hhit : brickHit b br
      · rw [if_pos hhit]
        exact Or.inr ⟨i, br, le_refl i, by omega, hbr, hhit, rfl⟩
      · rw [if_neg hhit]
        rcases ih (i + 1) with h | ⟨k, brk, h1, h2, h3, h4, h5⟩
        · exact Or.inl h
        · exact Or.inr ⟨k, brk, by omega, by omega, h3, h4, h5⟩

theorem tick_bricks (left right : Bool) (dt : ℚ) (g : Game) :
    (tick left right dt g).bricks = (brickStep (ballAfterPaddle left right dt g) g.bricks).2 :=
  rfl

theorem tick_ball (left right : Bool) (dt : ℚ) (g : Game) :
    (tick left right dt g).ball = (brickStep (ballAfterPaddle left right dt g) g.bricks).1 :=
  rfl

/-- An invisible brick is the same brick after the scan. -/
theorem brickLoop_keeps_invisible (b : Ball) (bricks : List Brick) (n i0 i : Nat)
    (br : Brick) (hbr : bricks[i]? = some br) (hinv : br.isVisible = 0) :
    (brickLoop b bricks n i0).2[i]? = some br := by
  rcases brickLoop_cases b bricks n i0 with h | ⟨k, brk, _, _, h3, h4, h5⟩
  · rw [h]; exact hbr
  · rw [h5]
    dsimp only
    have hne : k ≠ i := by
      intro heq
      subst heq
      rw [hbr] at h3
      cases h3
      exact h4.1 hinv
    rw [List.getElem?_set_ne hne]
    exact hbr

theorem tick_keeps_invisible (left right : Bool) (dt : ℚ) (g : Game) (i : Nat) (br : Brick)
    (hbr : g.bricks[i]? = some br) (hinv : br.isVisible = 0) :
    (tick left right dt g).bricks[i]? = some br := by
  rw [tick_bricks]
  exact brickLoop_keeps_invisible _ _ _ _ _ _ hbr hinv

theorem foldl_tick_keeps_invisible (i : Nat) (br : Brick) (hinv : br.isVisible = 0)
    (more : List Input) :
    ∀ g : Game, g.bricks[i]? = some br →
      (more.foldl (fun g inp => tick inp.left inp.right inp.dt g) g).bricks[i]? = some br := by
  induction more with
  | nil => intro g hg; exact hg
  | cons inp rest ih =>
    intro g hg
    rw [List.foldl_cons]
    exact ih _ (tick_keeps_invisible _ _ _ _ _ _ hg hinv)

theorem run_append (arg : Option Int) (inputs more : List Input) :
    run arg (inputs ++ more) =
      more.foldl (fun g inp => tick inp.left inp.right inp.dt g) (run arg inputs) := by
  unfold run
  rw [List.foldl_append]

/-- C4. A brick that is invisible before a loop iteration is the same
invisible brick after it, hence after any number of further iterations of a
run; the loop iteration that examines an invisible brick does nothing but move
on to the next index; and when every brick that overlaps the ball is
invisible the brick scan changes neither the ball nor any brick. -/
theorem invisible_brick_permanent (i : Nat) (br : Brick) (hinv : br.isVisible = 0) :
    (∀ (left right : Bool) (dt : ℚ) (g : Game), g.bricks[i]? = some br →
      (tick left right dt g).bricks[i]? = some br) ∧
    (∀ (arg : Option Int) (inputs more : List Input),
      (run arg inputs).bricks[i]? = some br →
      (run arg (inputs ++ more)).bricks[i]? = some br) ∧
    (∀ (b : Ball) (bricks : List Brick) (n : Nat), bricks[i]? = some br →
      brickLoop b bricks (n + 1) i = brickLoop b bricks n (i + 1)) ∧
    (∀ (b : Ball) (bricks : List Brick),
      (∀ (j : Nat) (brj : Brick), bricks[j]? = some brj → overlaps b brj →
        brj.isVisible = 0) →
      brickStep b bricks = (b, bricks)) := by
  refine ⟨?_, ?_, ?_, ?_⟩
  · intro left right dt g hbr
    exact tick_keeps_invisible left right dt g i br hbr hinv
  · intro arg inputs more hbr
    rw [run_append]
    exact foldl_tick_keeps_invisible i br hinv more _ hbr
  · intro b bricks n hbr
    conv_lhs => unfold brickLoop
    rw [hbr]
    dsimp only
    rw [if_neg (fun h => h.1 hinv)]
  · intro b bricks h
    exact brickLoop_miss b bricks _ 0 fun j brj _ _ hj hhit => hhit.1 (h j brj hj hhit.2)

theorem initBricks_index :
    ∀ j, j < 50 → initBricks[j]? = some (initBrick (j / 10) (j % 10)) := by
  decide

theorem invisible_brick_permanent_witness :
    ({ initBrick 0 0 with isVisible := 0 } : Brick).isVisible = 0 ∧
    clearedGame.bricks[0]? = some { initBrick 0 0 with isVisible := 0 } ∧
    overlaps (ballAfterPaddle false false 0 clearedGame)
      { initBrick 0 0 with isVisible := 0 } ∧
    (tick false false 0 clearedGame).bricks[0]? =
      some { initBrick 0 0 with isVisible := 0 } :=
  ⟨rfl, rfl,
   by norm_num [overlaps, ballAfterPaddle, clearedGame, initGame, initPaddle, initBrick,
        movePaddle, integrate, walls, wallLeft, wallRight, wallTop, wallBottom,
        paddleCollision, paddleHit, WINDOW_WIDTH, WINDOW_HEIGHT, PADDLE_WIDTH, PADDLE_HEIGHT,
        BRICK_WIDTH, BRICK_HEIGHT],
   (invisible_brick_permanent 0 _ rfl).1 false false 0 clearedGame rfl⟩

theorem destroyedCount_self (bricks : List Brick) : destroyedCount bricks bricks = 0 := by
  induction bricks with
  | nil => rfl
  | cons a l ih =>
    unfold destroyedCount at ih ⊢
    rw [List.zip_cons_cons, List.countP_cons, ih]
    have : ¬ (a.isVisible ≠ 0 ∧ a.isVisible = 0) := fun h => h.1 h.2
    simp [this]

theorem destroyedCount_set_le (x : Brick) (bricks : List Brick) :
    ∀ k : Nat, destroyedCount bricks (bricks.set k x) ≤ 1 := by
  induction bricks with
  | nil => intro k; simp [destroyedCount]
  | cons a l ih =>
    intro k
    cases k with
    | zero =>
      have h0 := destroyedCount_self l
      unfold destroyedCount at h0 ⊢
      rw [List.set_cons_zero, List.zip_cons_cons, List.countP_cons, h0]
      split_ifs <;> simp
    | succ k =>
      have hk := ih k
      unfold destroyedCount at hk ⊢
      rw [List.set_cons_succ, List.zip_cons_cons, List.countP_cons]
      have : ¬ (a.isVisible ≠ 0 ∧ a.isVisible = 0) := fun h => h.1 h.2
      simp only [this, decide_False, Bool.false_eq_true, if_false, add_zero]
      exact hk

theorem brickLoop_length (b : Ball) (bricks : List Brick) (n i : Nat) :
    (brickLoop b bricks n i).2.length = bricks.length := by
  rcases brickLoop_cases b bricks n i with h | ⟨k, brk, _, _, _, _, h5⟩
  · rw [h]
  · rw [h5]; exact List.length_set _ _ _

/-- C5. In every loop iteration, from every state, the number of bricks that
are visible before it and invisible after it is 0 or 1, however many visible
bricks the ball's square overlaps; the array keeps its length, so positions
before and after correspond. -/
theorem at_most_one_brick_per_tick (left right : Bool) (dt : ℚ) (g : Game) :
    (tick left right dt g).bricks.length = g.bricks.length ∧
    (destroyedCount g.bricks (tick left right dt g).bricks = 0 ∨
     destroyedCount g.bricks (tick left right dt g).bricks = 1) := by
  refine ⟨brickLoop_length _ _ _ _, ?_⟩
  have hle : destroyedCount g.bricks (tick left right dt g).bricks ≤ 1 := by
    rw [tick_bricks]
    unfold brickStep
    rcases brickLoop_cases (ballAfterPaddle left right dt g) g.bricks
      (BRICK_ROWS * BRICK_COLUMNS) 0 with h | ⟨k, brk, _, _, _, _, h5⟩
    · rw [h, destroyedCount_self]; exact Nat.zero_le 1
    · rw [h5]; exact destroyedCount_set_le _ _ _
  omega

/-- With the ball's square over the visible bricks 1 and 2 at once, one loop
iteration still clears a single brick. -/
theorem at_most_one_brick_per_tick_witness :
    brickHit (ballAfterPaddle false false 0 crowdedGame) (initBrick 0 1) ∧
    brickHit (ballAfterPaddle false false 0 crowdedGame) (initBrick 0 2) ∧
    (tick false false 0 crowdedGame).bricks.length = crowdedGame.bricks.length ∧
    destroyedCount crowdedGame.bricks (tick false false 0 crowdedGame).bricks = 1 := by
  refine ⟨by decide!, by decide!, (at_most_one_brick_per_tick false false 0 crowdedGame).1, ?_⟩
  rcases (at_most_one_brick_per_tick false false 0 crowdedGame).2 with h | h
  · exact absurd h (by decide!)
  · exact h

theorem initBrick_bottom_le (i j : Nat) (hi : i < 5) :
    (initBrick i j).y + (initBrick i j).height ≤ 170 := by
  have h : (i : ℚ) ≤ 4 := by exact_mod_cast Nat.le_of_lt_succ hi
  simp only [initBrick, BRICK_HEIGHT]
  push_cast
  linarith

theorem visibleCount_set_clear (x : Brick) (hx : x.isVisible = 0) (bricks : List Brick) :
    ∀ (k : Nat) (br : Brick), bricks[k]? = some br → br.isVisible ≠ 0 →
      visibleCount (bricks.set k x) + 1 = visibleCount bricks := by
  induction bricks with
  | nil => intro k br h; simp at h
  | cons a l ih =>
    intro k br h hvis
    cases k with
    | zero =>
      have ha : a = br := by simpa using h
      subst ha
      unfold visibleCount
      rw [List.set_cons_zero, List.countP_cons, List.countP_cons]
      simp [hx, hvis]
    | succ k =>
      have hk : l[k]? = some br := by simpa using h
      have := ih k br hk hvis
      unfold visibleCount at this ⊢
      rw [List.set_cons_succ, List.countP_cons, List.countP_cons]
      omega

/-- When some brick in range is hit, the scan clears a brick it hit. -/
theorem brickLoop_of_exists_hit (b : Ball) (bricks : List Brick) (n : Nat)
    (h : ∃ (j : Nat) (brj : Brick), j < n ∧ bricks[j]? = some brj ∧ brickHit b brj) :
    ∃ (k : Nat) (br : Brick), bricks[k]? = some br ∧ brickHit b br ∧
      brickLoop b bricks n 0 =
        ({ b with speedY := -b.speedY }, bricks.set k { br with isVisible := 0 }) := by
  rcases brickLoop_cases b bricks n 0 with hmiss | ⟨k, br, _, _, h3, h4, h5⟩
  · exfalso
    obtain ⟨j, brj, hj, hbr, hhit⟩ := h
    have hlen : j < bricks.length := (List.getElem?_eq_some.mp hbr).1
    -- a visible brick that is hit cannot survive an unchanged scan: find the first one
    have hP : ∃ k, k < n ∧ ∃ br, bricks[k]? = some br ∧ brickHit b br := ⟨j, hj, brj, hbr, hhit⟩
    classical
    obtain ⟨hk, brk, hbrk, hhitk⟩ := Nat.find_spec hP
    have hmin : ∀ (i : Nat) (bri : Brick), 0 ≤ i → i < Nat.find hP → bricks[i]? = some bri →
        ¬ brickHit b bri := by
      intro i bri _ hi hbri hhiti
      exact Nat.find_min hP hi ⟨by omega, bri, hbri, hhiti⟩
    have hset := brickLoop_hit b bricks (Nat.find hP) brk hbrk hhitk n 0 (Nat.zero_le _)
      (by omega) hmin
    rw [hmiss] at hset
    have hb := congrArg (fun r => r.1.speedY) hset
    have hl := congrArg (fun r => r.2[Nat.find hP]?) hset
    dsimp only at hb hl
    have hklen : Nat.find hP < bricks.length := (List.getElem?_eq_some.mp hbrk).1
    rw [List.getElem?_set_self hklen, hbrk] at hl
    have hv := congrArg Brick.isVisible (Option.some.inj hl)
    dsimp only at hv
    exact hhitk.1 hv
  · exact ⟨k, br, h3, h4, h5⟩

/-- C10. The initial grid has exactly 5 * 10 = 50 bricks and all 50 are
visible, at every difficulty; and every loop iteration that starts with 50
bricks, all visible, and in which the ball's square overlaps at least one
brick when the brick scan runs, ends with exactly 49 visible bricks. -/
theorem brick_grid_count :
    BRICK_ROWS * BRICK_COLUMNS = 50 ∧
    (∀ arg : Option Int, (initGame arg).bricks.length = 50 ∧
      visibleCount (initGame arg).bricks = 50) ∧
    (∀ (left right : Bool) (dt : ℚ) (g : Game),
      g.bricks.length = 50 → visibleCount g.bricks = 50 →
      (∃ (j : Nat) (brj : Brick), g.bricks[j]? = some brj ∧
        overlaps (ballAfterPaddle left right dt g) brj) →
      visibleCount (tick left right dt g).bricks = 49) := by
  have hlen0 : initBricks.length = 50 := by decide
  have hvis0 : visibleCount initBricks = 50 := by decide
  refine ⟨rfl, fun arg => ⟨hlen0, hvis0⟩, ?_⟩
  intro left right dt g hlen hvis ⟨j, brj, hbr, hov⟩
  have hall : ∀ br ∈ g.bricks, br.isVisible ≠ 0 := by
    have h : visibleCount g.bricks = g.bricks.length := by rw [hvis, hlen]
    unfold visibleCount at h
    intro br hmem
    have := (List.countP_eq_length.mp h) br hmem
    simpa using this
  have hj : j < 50 := by
    have := (List.getElem?_eq_some.mp hbr).1
    omega
  have hmem : brj ∈ g.bricks := by
    obtain ⟨hlt, heq⟩ := List.getElem?_eq_some.mp hbr
    exact List.mem_iff_getElem.mpr ⟨j, hlt, heq⟩
  obtain ⟨k, br, hk, hhit, hloop⟩ := brickLoop_of_exists_hit (ballAfterPaddle left right dt g)
    g.bricks (BRICK_ROWS * BRICK_COLUMNS) ⟨j, brj, hj, hbr, hall brj hmem, hov⟩
  rw [tick_bricks]
  unfold brickStep
  rw [hloop]
  have := visibleCount_set_clear { br with isVisible := 0 } rfl g.bricks k br hk hhit.1
  dsimp only
  omega

/-- On the full grid with the ball's square over bricks 1, 2, 11 and 12, one
loop iteration leaves 49 visible bricks. -/
theorem brick_grid_count_witness :
    crowdedGame.bricks.length = 50 ∧ visibleCount crowdedGame.bricks = 50 ∧
    overlaps (ballAfterPaddle false false 0 crowdedGame) (initBrick 0 1) ∧
    visibleCount (tick false false 0 crowdedGame).bricks = 49 :=
  ⟨by decide, by decide, by decide!,
   brick_grid_count.2.2 false false 0 crowdedGame (by decide) (by decide)
     ⟨1, initBrick 0 1, by decide, by decide!⟩⟩

/-! ## Invariants of a run -/

theorem walls_eq (b : Ball) : walls b = wallBottom (wallTop (wallRight (wallLeft b))) := rfl

theorem walls_radius (b : Ball) : (walls b).radius = b.radius := by
  rw [walls_eq, wallBottom_radius, wallTop_radius, wallRight_radius, wallLeft_radius]

theorem wallBottom_y_le (b : Ball) (hr : b.radius = 10) : (wallBottom b).y ≤ 610 := by
  have hH : ((WINDOW_HEIGHT : Int) : ℚ) = 600 := by norm_num [WINDOW_HEIGHT]
  unfold wallBottom
  split_ifs with h
  · norm_num [WINDOW_HEIGHT]
  · rw [hH, hr] at h
    linarith [not_lt.mp h]

theorem walls_ballInv (b : Ball) (hr : b.radius = 10) : BallInv (walls b) := by
  have hr2 : b.radius = (BALL_RADIUS : ℚ) := by rw [hr]; norm_num [BALL_RADIUS]
  have hb := walls_bounds b hr2
  rw [hr] at hb
  have hW : ((WINDOW_WIDTH : Int) : ℚ) = 800 := by norm_num [WINDOW_WIDTH]
  rw [hW] at hb
  have hy : (walls b).y ≤ 610 :=
    wallBottom_y_le _ (by rw [wallTop_radius, wallRight_radius, wallLeft_radius, hr])
  exact ⟨by rw [walls_radius, hr], hb.1, by linarith [hb.2.1], hb.2.2, hy⟩

theorem paddleCollision_ballInv (p : Paddle) (hp : p.y = 570) (b : Ball) (hb : BallInv b) :
    BallInv (paddleCollision p b) := by
  unfold paddleCollision
  split_ifs
  · obtain ⟨hr, hx0, hx1, _, _⟩ := hb
    refine ⟨hr, hx0, hx1, ?_, ?_⟩ <;> dsimp only <;> rw [hp, hr] <;> norm_num
  · exact hb

/-- The brick scan leaves the ball where it is and either keeps `speedY` or
negates it. -/
theorem brickLoop_ball (b : Ball) (bricks : List Brick) (n i : Nat) :
    (brickLoop b bricks n i).1 = b ∨
    (brickLoop b bricks n i).1 = { b with speedY := -b.speedY } := by
  rcases brickLoop_cases b bricks n i with h | ⟨k, br, _, _, _, _, h5⟩
  · rw [h]; exact Or.inl rfl
  · rw [h5]; exact Or.inr rfl

theorem brickLoop_ballInv (b : Ball) (bricks : List Brick) (n i : Nat) (hb : BallInv b) :
    BallInv (brickLoop b bricks n i).1 := by
  rcases brickLoop_ball b bricks n i with h | h <;> rw [h] <;> exact hb

theorem brickLoop_bricks_above (b : Ball) (bricks : List Brick) (n i : Nat)
    (h : ∀ br ∈ bricks, br.y + br.height ≤ 170) :
    ∀ br ∈ (brickLoop b bricks n i).2, br.y + br.height ≤ 170 := by
  rcases brickLoop_cases b bricks n i with hc | ⟨k, brk, _, _, h3, _, h5⟩
  · rw [hc]; exact h
  · rw [h5]
    intro br hmem
    rcases List.mem_or_eq_of_mem_set hmem with h1 | h1
    · exact h br h1
    · rw [h1]
      obtain ⟨hlt, heq⟩ := List.getElem?_eq_some.mp h3
      exact h brk (List.mem_iff_getElem.mpr ⟨k, hlt, heq⟩)

theorem moveLeft_frame (dt : ℚ) (p : Paddle) :
    (moveLeft dt p).y = p.y ∧ (moveLeft dt p).width = p.width ∧
    (moveLeft dt p).height = p.height ∧ (moveLeft dt p).speed = p.speed := by
  unfold moveLeft
  dsimp only
  split_ifs <;> exact ⟨rfl, rfl, rfl, rfl⟩

theorem moveRight_frame (dt : ℚ) (p : Paddle) :
    (moveRight dt p).y = p.y ∧ (moveRight dt p).width = p.width ∧
    (moveRight dt p).height = p.height ∧ (moveRight dt p).speed = p.speed := by
  unfold moveRight
  dsimp only
  split_ifs <;> exact ⟨rfl, rfl, rfl, rfl⟩

theorem movePaddle_frame (left right : Bool) (dt : ℚ) (p : Paddle) :
    (movePaddle left right dt p).y = p.y ∧ (movePaddle left right dt p).width = p.width ∧
    (movePaddle left right dt p).height = p.height ∧
    (movePaddle left right dt p).speed = p.speed := by
  unfold movePaddle
  cases left <;> cases right <;> simp only [Bool.false_eq_true, if_true, if_false]
  · exact ⟨trivial, trivial, trivial, trivial⟩
  · exact moveRight_frame dt p
  · exact moveLeft_frame dt p
  · obtain ⟨a1, a2, a3, a4⟩ := moveLeft_frame dt p
    obtain ⟨b1, b2, b3, b4⟩ := moveRight_frame dt (moveLeft dt p)
    exact ⟨b1.trans a1, b2.trans a2, b3.trans a3, b4.trans a4⟩

theorem initGame_gameInv (arg : Option Int) : GameInv (initGame arg) := by
  refine ⟨?_, ?_, ?_⟩
  · norm_num [BallInv, initGame, initBall, WINDOW_WIDTH, WINDOW_HEIGHT, BALL_RADIUS]
  · norm_num [initGame, initPaddle, WINDOW_HEIGHT, PADDLE_HEIGHT]
  · intro br hmem
    have hmem2 : br ∈ initBricks := hmem
    obtain ⟨j, hlt, heq⟩ := List.mem_iff_getElem.mp hmem2
    have hlen : initBricks.length = 50 := by decide
    have hj : j < 50 := by
      have : j < initBricks.length := hlt
      omega
    have hidx := initBricks_index j hj
    rw [List.getElem?_eq_getElem hlt] at hidx
    have hbr : br = initBrick (j / 10) (j % 10) := by
      rw [← heq]; exact Option.some.inj hidx
    rw [hbr]
    exact initBrick_bottom_le _ _ (by omega)

theorem tick_gameInv (left right : Bool) (dt : ℚ) (g : Game) (hg : GameInv g) :
    GameInv (tick left right dt g) := by
  obtain ⟨hb, hp, hbr⟩ := hg
  have hp2 : (movePaddle left right dt g.paddle).y = 570 :=
    (movePaddle_frame left right dt g.paddle).1.trans hp
  refine ⟨?_, hp2, ?_⟩
  · rw [tick_ball]
    apply brickLoop_ballInv
    unfold ballAfterPaddle
    exact paddleCollision_ballInv _ hp2 _ (walls_ballInv _ hb.1)
  · rw [tick_bricks]
    exact brickLoop_bricks_above _ _ _ _ hbr

theorem foldl_tick_gameInv (inputs : List Input) :
    ∀ g : Game, GameInv g →
      GameInv (inputs.foldl (fun g inp => tick inp.left inp.right inp.dt g) g) := by
  induction inputs with
  | nil => intro g hg; exact hg
  | cons inp rest ih =>
    intro g hg
    rw [List.foldl_cons]
    exact ih _ (tick_gameInv _ _ _ g hg)

/-- Every state of every run satisfies `GameInv`, whatever the `deltaTime`s. -/
theorem run_gameInv (arg : Option Int) (inputs : List Input) : GameInv (run arg inputs) :=
  foldl_tick_gameInv inputs _ (initGame_gameInv arg)

/-! ## Ball lost -/

theorem wallLeft_vertical (b : Ball) :
    (wallLeft b).y = b.y ∧ (wallLeft b).speedY = b.speedY := by
  unfold wallLeft; split_ifs <;> exact ⟨rfl, rfl⟩

theorem wallRight_vertical (b : Ball) :
    (wallRight b).y = b.y ∧ (wallRight b).speedY = b.speedY := by
  unfold wallRight; split_ifs <;> exact ⟨rfl, rfl⟩

/-- When the bottom check fires, the top check of the same iteration did not:
the ball reaches the bottom check with the `y` of the integration step and the
`speedY` it had at the start of the iteration. -/
theorem bottom_fires_vertical (dt : ℚ) (b : Ball)
    (hfire : (ballAtBottomCheck dt b).y - (ballAtBottomCheck dt b).radius > 600) :
    ¬ (wallRight (wallLeft (integrate dt b))).y -
        (wallRight (wallLeft (integrate dt b))).radius < 0 ∧
    (ballAtBottomCheck dt b).y = b.y + b.speedY * dt ∧
    (ballAtBottomCheck dt b).speedY = b.speedY ∧
    (ballAtBottomCheck dt b).radius = b.radius := by
  have hv1 := wallLeft_vertical (integrate dt b)
  have hv2 := wallRight_vertical (wallLeft (integrate dt b))
  have hrad : (ballAtBottomCheck dt b).radius = b.radius := by
    unfold ballAtBottomCheck
    rw [wallTop_radius, wallRight_radius, wallLeft_radius]
    rfl
  have hy : (wallRight (wallLeft (integrate dt b))).y = b.y + b.speedY * dt := by
    rw [hv2.1, hv1.1]; rfl
  have hs : (wallRight (wallLeft (integrate dt b))).speedY = b.speedY := by
    rw [hv2.2, hv1.2]; rfl
  have htop : ¬ (wallRight (wallLeft (integrate dt b))).y -
      (wallRight (wallLeft (integrate dt b))).radius < 0 := by
    intro h
    unfold ballAtBottomCheck wallTop at hfire
    rw [if_pos h] at hfire
    dsimp only at hfire
    linarith
  have heq : ballAtBottomCheck dt b = wallRight (wallLeft (integrate dt b)) := by
    unfold ballAtBottomCheck wallTop
    rw [if_neg htop]
  exact ⟨htop, by rw [heq, hy], by rw [heq, hs], hrad⟩

/-- C11 as the code has it.  In a run from the initial state of any
difficulty, when the bottom check of a loop iteration with `deltaTime >= 0`
fires, the ball is put at (400, 300) and `speedX` and `speedY` are the values
the ball had right before the check: nothing restores the initial signs.
`speedY` is then positive, since the ball left the arena moving down. -/
theorem reset_keeps_velocity (arg : Option Int) (inputs : List Input) (dt : ℚ)
    (hdt : 0 ≤ dt)
    (hfire : (ballAtBottomCheck dt (run arg inputs).ball).y -
      (ballAtBottomCheck dt (run arg inputs).ball).radius > 600) :
    (wallBottom (ballAtBottomCheck dt (run arg inputs).ball)).x = 400 ∧
    (wallBottom (ballAtBottomCheck dt (run arg inputs).ball)).y = 300 ∧
    (wallBottom (ballAtBottomCheck dt (run arg inputs).ball)).speedX =
      (ballAtBottomCheck dt (run arg inputs).ball).speedX ∧
    (wallBottom (ballAtBottomCheck dt (run arg inputs).ball)).speedY =
      (ballAtBottomCheck dt (run arg inputs).ball).speedY ∧
    (wallBottom (ballAtBottomCheck dt (run arg inputs).ball)).speedY > 0 := by
  have hH : ((WINDOW_HEIGHT : Int) : ℚ) = 600 := by norm_num [WINDOW_HEIGHT]
  obtain ⟨hinv, _, _⟩ := run_gameInv arg inputs
  obtain ⟨hr, _, _, _, hy610⟩ := hinv
  obtain ⟨_, hy, hs, hrad⟩ := bottom_fires_vertical dt (run arg inputs).ball hfire
  have hpos : 0 < (run arg inputs).ball.speedY := by
    by_contra hneg
    have hle : (run arg inputs).ball.speedY * dt ≤ 0 :=
      mul_nonpos_of_nonpos_of_nonneg (not_lt.mp hneg) hdt
    rw [hy, hrad, hr] at hfire
    linarith
  have hwb : wallBottom (ballAtBottomCheck dt (run arg inputs).ball) =
      { ballAtBottomCheck dt (run arg inputs).ball with
        x := ((WINDOW_WIDTH / 2 : Int) : ℚ), y := ((WINDOW_HEIGHT / 2 : Int) : ℚ) } := by
    conv_lhs => unfold wallBottom
    rw [if_pos (by rw [hH]; exact hfire)]
  rw [hwb]
  dsimp only
  refine ⟨by norm_num [WINDOW_WIDTH], by norm_num [WINDOW_HEIGHT], rfl, rfl, ?_⟩
  rw [hs]
  exact hpos

/-- After `lostRun` the next eighth of a second takes the ball below the
bottom edge; it is re-centred still moving left and down. -/
theorem reset_keeps_velocity_witness :
    (0 : ℚ) ≤ 1 / 8 ∧
    (ballAtBottomCheck (1 / 8) (run (some 2) lostRun).ball).y -
      (ballAtBottomCheck (1 / 8) (run (some 2) lostRun).ball).radius > 600 ∧
    (wallBottom (ballAtBottomCheck (1 / 8) (run (some 2) lostRun).ball)).speedY > 0 :=
  ⟨by norm_num, by decide!,
   (reset_keeps_velocity (some 2) lostRun (1 / 8) (by norm_num) (by decide!)).2.2.2.2⟩

/-- C11 as stated fails.  At medium difficulty with no key held, the 23rd loop
iteration of an eighth of a second finds the ball at (615, 625), below the
bottom edge, and re-centres it with velocity (-200, 200): neither `speedX > 0`
nor `speedY < 0`. -/
theorem reset_restores_signs_counterexample :
    (run (some 2) lostRun).ball = ⟨640, 600, 10, -200, 200⟩ ∧
    ballAtBottomCheck (1 / 8) (run (some 2) lostRun).ball = ⟨615, 625, 10, -200, 200⟩ ∧
    (ballAtBottomCheck (1 / 8) (run (some 2) lostRun).ball).y -
      (ballAtBottomCheck (1 / 8) (run (some 2) lostRun).ball).radius > 600 ∧
    wallBottom (ballAtBottomCheck (1 / 8) (run (some 2) lostRun).ball) =
      ⟨400, 300, 10, -200, 200⟩ ∧
    (tick false false (1 / 8) (run (some 2) lostRun)).ball = ⟨400, 300, 10, -200, 200⟩ ∧
    ¬ ((tick false false (1 / 8) (run (some 2) lostRun)).ball.speedX > 0 ∧
       (tick false false (1 / 8) (run (some 2) lostRun)).ball.speedY < 0) := by
  decide!

/-! ## Speeds -/

theorem ballAfterPaddle_radius (left right : Bool) (dt : ℚ) (g : Game) :
    (ballAfterPaddle left right dt g).radius = g.ball.radius := by
  have h : ∀ (p : Paddle) (b : Ball), (paddleCollision p b).radius = b.radius := by
    intro p b
    unfold paddleCollision; split_ifs <;> rfl
  unfold ballAfterPaddle
  rw [h, walls_radius]
  rfl

/-- The brick scan keeps every brick's rectangle. -/
theorem brickLoop_geometry (b : Ball) (bricks : List Brick) (n i0 i : Nat) (br : Brick)
    (hbr : bricks[i]? = some br) :
    ∃ br2, (brickLoop b bricks n i0).2[i]? = some br2 ∧ br2.x = br.x ∧ br2.y = br.y ∧
      br2.width = br.width ∧ br2.height = br.height := by
  rcases brickLoop_cases b bricks n i0 with h | ⟨k, brk, _, _, h3, _, h5⟩
  · rw [h]; exact ⟨br, hbr, rfl, rfl, rfl, rfl⟩
  · rw [h5]
    dsimp only
    by_cases hki : k = i
    · subst hki
      have hlt : k < bricks.length := (List.getElem?_eq_some.mp hbr).1
      rw [hbr] at h3
      have hbk : br = brk := Option.some.inj h3
      subst hbk
      exact ⟨_, List.getElem?_set_self hlt, rfl, rfl, rfl, rfl⟩
    · rw [List.getElem?_set_ne hki]
      exact ⟨br, hbr, rfl, rfl, rfl, rfl⟩

/-- C14. For every state and every loop iteration, `paddle.y`,
`paddle.width`, `paddle.height`, `paddle.speed`, `ball.radius`, the number of
bricks and the `x`, `y`, `width` and `height` of every brick are unchanged;
what is left to change is `paddle.x`, the ball's position and velocity, and
the visibility flags. -/
theorem tick_frame (left right : Bool) (dt : ℚ) (g : Game) :
    (tick left right dt g).paddle.y = g.paddle.y ∧
    (tick left right dt g).paddle.width = g.paddle.width ∧
    (tick left right dt g).paddle.height = g.paddle.height ∧
    (tick left right dt g).paddle.speed = g.paddle.speed ∧
    (tick left right dt g).ball.radius = g.ball.radius ∧
    (tick left right dt g).bricks.length = g.bricks.length ∧
    (∀ (i : Nat) (br : Brick), g.bricks[i]? = some br →
      ∃ br2, (tick left right dt g).bricks[i]? = some br2 ∧ br2.x = br.x ∧ br2.y = br.y ∧
        br2.width = br.width ∧ br2.height = br.height) := by
  obtain ⟨h1, h2, h3, h4⟩ := movePaddle_frame left right dt g.paddle
  refine ⟨h1, h2, h3, h4, ?_, brickLoop_length _ _ _ _, ?_⟩
  · rw [tick_ball]
    unfold brickStep
    rcases brickLoop_ball (ballAfterPaddle left right dt g) g.bricks
      (BRICK_ROWS * BRICK_COLUMNS) 0 with h | h <;> rw [h]
    · exact ballAfterPaddle_radius left right dt g
    · exact ballAfterPaddle_radius left right dt g
  · intro i br hbr
    rw [tick_bricks]
    exact brickLoop_geometry _ _ _ _ i br hbr

/-- The iteration that clears brick 2 of the full grid changes that brick's
flag only, and moves the paddle along `x` only. -/
theorem tick_frame_witness :
    crowdedGame.bricks[2]? = some ⟨175, 50, 60, 20, 1⟩ ∧
    (tick true false (1 / 8) crowdedGame).bricks[2]? = some ⟨175, 50, 60, 20, 0⟩ ∧
    crowdedGame.paddle = ⟨350, 570, 100, 20, 400⟩ ∧
    (tick true false (1 / 8) crowdedGame).paddle = ⟨300, 570, 100, 20, 400⟩ ∧
    (tick true false (1 / 8) crowdedGame).bricks.length = 50 := by
  refine ⟨by decide!, by decide!, by decide!, by decide!, ?_⟩
  rw [(tick_frame true false (1 / 8) crowdedGame).2.2.2.2.2.1]
  decide

/-! ## Frame rate and colours -/

/-- C15. The frame budget is the integer 1000 / 60 = 16 ms.  For every value
`t` of the `int` `frameTime`, the loop calls `SDL_Delay (16 - t)` when
`t < 16` and does not call it when `t >= 16`, so frame time plus sleep is
`max t 16`; and `frameTime` is the elapsed tick count whenever fewer than
2^31 ms have elapsed, also across a wrap of the 32-bit tick counter. -/
theorem frame_governor :
    frameDelay = 16 ∧
    (∀ t : Int, -2 ^ 31 ≤ t → t < 2 ^ 31 →
      (t < 16 → frameSleep t = some (16 - t).toNat) ∧
      (16 ≤ t → frameSleep t = none) ∧
      t + (((frameSleep t).getD 0 : Nat) : Int) = max t 16) ∧
    (∀ frameStart e : Nat, frameStart < 2 ^ 32 → e < 2 ^ 31 →
      frameTime frameStart ((frameStart + e) % 2 ^ 32) = (e : Int)) := by
  have hd : frameDelay = 16 := by decide
  refine ⟨hd, ?_, ?_⟩
  · intro t hlo hhi
    have hsleep : t < 16 → frameSleep t = some (16 - t).toNat := by
      intro h
      unfold frameSleep
      rw [hd, if_pos h]
      congr 2
      exact Int.emod_eq_of_lt (by omega) (by omega)
    have hnone : 16 ≤ t → frameSleep t = none := by
      intro h
      unfold frameSleep
      rw [hd, if_neg (by omega)]
    refine ⟨hsleep, hnone, ?_⟩
    rcases lt_or_le t 16 with h | h
    · rw [hsleep h, Option.getD_some, max_eq_right (le_of_lt h)]
      omega
    · rw [hnone h, Option.getD_none, max_eq_left h]
      simp
  · intro frameStart e hs he
    unfold frameTime
    dsimp only
    have hval : ((((frameStart + e) % 2 ^ 32 : Nat) : Int) - (frameStart : Int)) % 2 ^ 32 =
        (e : Int) := by
      omega
    rw [hval, if_pos (by omega)]

/-- A 5 ms frame sleeps 11 ms, frames of 16 ms and of 40 ms do not sleep, and
a frame that starts 6 ms before the tick counter wraps and ends 4 ms after it
lasted 10 ms. -/
theorem frame_governor_witness :
    frameSleep 5 = some 11 ∧ frameSleep 16 = none ∧ frameSleep 40 = none ∧
    frameTime 4294967290 4 = 10 := by
  have h5 := (frame_governor.2.1 5 (by norm_num) (by norm_num)).1 (by norm_num)
  have h16 := (frame_governor.2.1 16 (by norm_num) (by norm_num)).2.1 (by norm_num)
  have h40 := (frame_governor.2.1 40 (by norm_num) (by norm_num)).2.1 (by norm_num)
  have hw := frame_governor.2.2 4294967290 10 (by norm_num) (by norm_num)
  exact ⟨h5, h16, h40, hw⟩

/-- C16. For every brick index `i` (0..49 in the program) the draw colour is
`palette[(i / 10) mod 5]`, whatever colour was in force before; so two bricks
of one row get the same colour, and two bricks below index 50 in different
rows get different colours. -/
theorem brick_colour (current : Color) (i : Nat) :
    palette[i / 10 % 5]? = some (brickColor current i) ∧
    (∀ (other : Color) (j : Nat), i / 10 = j / 10 → brickColor current i = brickColor other j) ∧
    (∀ (other : Color) (j : Nat), i < 50 → j < 50 → i / 10 ≠ j / 10 →
      brickColor current i ≠ brickColor other j) := by
  have key : ∀ (c : Color) (k : Nat), palette[k / 10 % 5]? = some (brickColor c k) := by
    intro c k
    unfold brickColor
    have hB : BRICK_COLUMNS = 10 := rfl
    rw [hB]
    have hr : k / 10 % 5 < 5 := Nat.mod_lt _ (by norm_num)
    generalize k / 10 % 5 = r at hr
    interval_cases r <;> rfl
  refine ⟨key current i, ?_, ?_⟩
  · intro other j hij
    have h1 := key current i
    have h2 := key other j
    rw [hij, h2] at h1
    exact (Option.some.inj h1).symm
  · intro other j hi hj hij heq
    have h1 := key current i
    have h2 := key other j
    rw [heq, ← h2] at h1
    have hri : i / 10 < 5 := by omega
    have hrj : j / 10 < 5 := by omega
    rw [Nat.mod_eq_of_lt hri, Nat.mod_eq_of_lt hrj] at h1
    generalize i / 10 = a at hri hij h1
    generalize j / 10 = c at hrj hij h1
    interval_cases a <;> interval_cases c <;> first | exact hij rfl | exact absurd h1 (by decide)

/-- Bricks 0, 10, 20, 30, 40 and 49 are red, green, blue, yellow, orange and
orange when drawn after the white ball. -/
theorem brick_colour_witness :
    brickColor ⟨255, 255, 255, 255⟩ 0 = ⟨255, 0, 0, 255⟩ ∧
    brickColor ⟨255, 255, 255, 255⟩ 10 = ⟨0, 255, 0, 255⟩ ∧
    brickColor ⟨255, 255, 255, 255⟩ 20 = ⟨0, 0, 255, 255⟩ ∧
    brickColor ⟨255, 255, 255, 255⟩ 30 = ⟨255, 255, 0, 255⟩ ∧
    brickColor ⟨255, 255, 255, 255⟩ 40 = ⟨255, 165, 0, 255⟩ ∧
    brickColor ⟨255, 255, 255, 255⟩ 49 = ⟨255, 165, 0, 255⟩ := by
  have h := fun i => (brick_colour ⟨255, 255, 255, 255⟩ i).1
  refine ⟨?_, ?_, ?_, ?_, ?_, ?_⟩
  · exact (Option.some.inj (h 0)).symm
  · exact (Option.some.inj (h 10)).symm
  · exact (Option.some.inj (h 20)).symm
  · exact (Option.some.inj (h 30)).symm
  · exact (Option.some.inj (h 40)).symm
  · exact (Option.some.inj (h 49)).symm

/-! ## Wall reflections and the lost ball -/

theorem wallTop_speedX (b : Ball) : (wallTop b).speedX = b.speedX := by
  unfold wallTop; split_ifs <;> rfl

/-- C17. In every state of every run from the initial state of any
difficulty, for a loop iteration with `deltaTime >= 0`: when the left-wall
check fires `speedX` is positive afterwards, when the right-wall check fires
`speedX` is negative afterwards, and when the top-wall check fires `speedY` is
positive afterwards.  The earlier iterations of the run may have had any
`deltaTime`. -/
theorem wall_reflections_point_inward (arg : Option Int) (inputs : List Input) (dt : ℚ)
    (hdt : 0 ≤ dt) :
    ((integrate dt (run arg inputs).ball).x - (integrate dt (run arg inputs).ball).radius < 0 →
      (wallLeft (integrate dt (run arg inputs).ball)).speedX > 0) ∧
    ((wallLeft (integrate dt (run arg inputs).ball)).x +
        (wallLeft (integrate dt (run arg inputs).ball)).radius > 800 →
      (wallRight (wallLeft (integrate dt (run arg inputs).ball))).speedX < 0) ∧
    ((wallRight (wallLeft (integrate dt (run arg inputs).ball))).y -
        (wallRight (wallLeft (integrate dt (run arg inputs).ball))).radius < 0 →
      (wallTop (wallRight (wallLeft (integrate dt (run arg inputs).ball)))).speedY > 0) := by
  have hW : ((WINDOW_WIDTH : Int) : ℚ) = 800 := by norm_num [WINDOW_WIDTH]
  obtain ⟨⟨hr, hx0, hx1, hy0, _⟩, _, _⟩ := run_gameInv arg inputs
  generalize (run arg inputs).ball = b at hr hx0 hx1 hy0
  have hix : (integrate dt b).x = b.x + b.speedX * dt := rfl
  have hiy : (integrate dt b).y = b.y + b.speedY * dt := rfl
  have hir : (integrate dt b).radius = b.radius := rfl
  have hisx : (integrate dt b).speedX = b.speedX := rfl
  have hisy : (integrate dt b).speedY = b.speedY := rfl
  refine ⟨?_, ?_, ?_⟩
  · intro hfire
    rw [hix, hir, hr] at hfire
    have hneg : b.speedX < 0 := by
      by_contra hc
      have := mul_nonneg (not_lt.mp hc) hdt
      linarith
    unfold wallLeft
    rw [if_pos (by rw [hix, hir, hr]; exact hfire)]
    dsimp only
    rw [hisx]
    linarith
  · intro hfire
    by_cases hl : (integrate dt b).x - (integrate dt b).radius < 0
    · exfalso
      unfold wallLeft at hfire
      rw [if_pos hl] at hfire
      dsimp only at hfire
      rw [hir, hr] at hfire
      linarith
    · have hwl : wallLeft (integrate dt b) = integrate dt b := by
        unfold wallLeft; rw [if_neg hl]
      rw [hwl] at hfire ⊢
      have hpos : 0 < b.speedX := by
        by_contra hc
        have := mul_nonpos_of_nonpos_of_nonneg (not_lt.mp hc) hdt
        rw [hix, hir, hr] at hfire
        linarith
      unfold wallRight
      rw [if_pos (by rw [hW]; exact hfire)]
      dsimp only
      rw [hisx]
      linarith
  · intro hfire
    have hv1 := wallLeft_vertical (integrate dt b)
    have hv2 := wallRight_vertical (wallLeft (integrate dt b))
    have hrad : (wallRight (wallLeft (integrate dt b))).radius = 10 := by
      rw [wallRight_radius, wallLeft_radius, hir, hr]
    have hy : (wallRight (wallLeft (integrate dt b))).y = b.y + b.speedY * dt := by
      rw [hv2.1, hv1.1, hiy]
    have hs : (wallRight (wallLeft (integrate dt b))).speedY = b.speedY := by
      rw [hv2.2, hv1.2, hisy]
    have hneg : b.speedY < 0 := by
      by_contra hc
      have := mul_nonneg (not_lt.mp hc) hdt
      rw [hy, hrad] at hfire
      linarith
    unfold wallTop
    rw [if_pos hfire]
    dsimp only
    rw [hs]
    linarith

/-- From the initial state a two-second iteration takes the ball past the
right wall and past the top wall; both checks fire and turn the velocity from
(200, -200) to (-200, 200).  After `lostRun` and the lost ball, a two-second
iteration takes the ball past the left wall, which turns `speedX` to 200. -/
theorem wall_reflections_point_inward_witness :
    (0 : ℚ) ≤ 2 ∧
    (wallLeft (integrate 2 (run none []).ball)).x +
      (wallLeft (integrate 2 (run none []).ball)).radius > 800 ∧
    (wallRight (wallLeft (integrate 2 (run none []).ball))).y -
      (wallRight (wallLeft (integrate 2 (run none []).ball))).radius < 0 ∧
    (wallTop (wallRight (wallLeft (integrate 2 (run none []).ball)))).speedX < 0 ∧
    (wallTop (wallRight (wallLeft (integrate 2 (run none []).ball)))).speedY > 0 ∧
    (integrate 2 (run (some 2) (lostRun ++ [⟨false, false, 1 / 8⟩])).ball).x -
      (integrate 2 (run (some 2) (lostRun ++ [⟨false, false, 1 / 8⟩])).ball).radius < 0 ∧
    (wallLeft (integrate 2 (run (some 2) (lostRun ++ [⟨false, false, 1 / 8⟩])).ball)).speedX
      > 0 := by
  have h := wall_reflections_point_inward none [] 2 (by norm_num)
  have h2 := wall_reflections_point_inward (some 2) (lostRun ++ [⟨false, false, 1 / 8⟩]) 2
    (by norm_num)
  have hright : (wallLeft (integrate 2 (run none []).ball)).x +
      (wallLeft (integrate 2 (run none []).ball)).radius > 800 := by decide!
  have htop : (wallRight (wallLeft (integrate 2 (run none []).ball))).y -
      (wallRight (wallLeft (integrate 2 (run none []).ball))).radius < 0 := by decide!
  have hleft : (integrate 2 (run (some 2) (lostRun ++ [⟨false, false, 1 / 8⟩])).ball).x -
      (integrate 2 (run (some 2) (lostRun ++ [⟨false, false, 1 / 8⟩])).ball).radius < 0 := by
    decide!
  refine ⟨by norm_num, hright, htop, ?_, h.2.2 htop, hleft, h2.1 hleft⟩
  rw [wallTop_speedX]
  exact h.2.1 hright

/-- C18. With the program's constants (`paddle.y = 570`, `radius = 10`, no
brick reaching below `y = 170`), in every loop iteration in which the bottom
check fires: the top check did not fire, the paddle check does not fire, no
brick check fires, and at the end of the iteration the ball is at exactly
(400, 300), `speedY` is what it was at the start of the iteration, and the
bricks are what they were. -/
theorem ball_lost_tick (left right : Bool) (dt : ℚ) (g : Game)
    (hpy : g.paddle.y = 570) (hr : g.ball.radius = 10)
    (hbr : ∀ br ∈ g.bricks, br.y + br.height ≤ 170)
    (hfire : (ballAtBottomCheck dt g.ball).y - (ballAtBottomCheck dt g.ball).radius > 600) :
    ¬ (wallRight (wallLeft (integrate dt g.ball))).y -
        (wallRight (wallLeft (integrate dt g.ball))).radius < 0 ∧
    ¬ paddleHit (movePaddle left right dt g.paddle) (walls (integrate dt g.ball)) ∧
    (∀ (j : Nat) (brj : Brick), g.bricks[j]? = some brj →
      ¬ brickHit (ballAfterPaddle left right dt g) brj) ∧
    (tick left right dt g).ball.x = 400 ∧
    (tick left right dt g).ball.y = 300 ∧
    (tick left right dt g).ball.speedY = g.ball.speedY ∧
    (tick left right dt g).bricks = g.bricks := by
  have hH : ((WINDOW_HEIGHT : Int) : ℚ) = 600 := by norm_num [WINDOW_HEIGHT]
  obtain ⟨htop, _, hs, hrad⟩ := bottom_fires_vertical dt g.ball hfire
  have hwalls : walls (integrate dt g.ball) =
      { ballAtBottomCheck dt g.ball with x := 400, y := 300 } := by
    have h0 : walls (integrate dt g.ball) = wallBottom (ballAtBottomCheck dt g.ball) := rfl
    rw [h0]
    conv_lhs => unfold wallBottom
    rw [if_pos (by rw [hH]; exact hfire)]
    norm_num [WINDOW_WIDTH, WINDOW_HEIGHT]
  have hpy2 : (movePaddle left right dt g.paddle).y = 570 :=
    (movePaddle_frame left right dt g.paddle).1.trans hpy
  have hmiss : ¬ paddleHit (movePaddle left right dt g.paddle) (walls (integrate dt g.ball)) := by
    intro hhit
    have h1 := hhit.1
    rw [hwalls] at h1
    dsimp only at h1
    rw [hrad, hr, hpy2] at h1
    norm_num at h1
  have hball : ballAfterPaddle left right dt g =
      { ballAtBottomCheck dt g.ball with x := 400, y := 300 } := by
    unfold ballAfterPaddle paddleCollision
    rw [if_neg hmiss, hwalls]
  have hbricks : ∀ (j : Nat) (brj : Brick), g.bricks[j]? = some brj →
      ¬ brickHit (ballAfterPaddle left right dt g) brj := by
    intro j brj hj hhit
    have hmem : brj ∈ g.bricks := by
      obtain ⟨hlt, heq⟩ := List.getElem?_eq_some.mp hj
      exact List.mem_iff_getElem.mpr ⟨j, hlt, heq⟩
    have hlow := hbr brj hmem
    have h4 := hhit.2.2.2.2
    rw [hball] at h4
    dsimp only at h4
    rw [hrad, hr] at h4
    linarith
  have hstep : brickStep (ballAfterPaddle left right dt g) g.bricks =
      (ballAfterPaddle left right dt g, g.bricks) :=
    brickLoop_miss _ _ _ 0 fun j brj _ _ hj => hbricks j brj hj
  refine ⟨htop, hmiss, hbricks, ?_, ?_, ?_, ?_⟩
  · rw [tick_ball, hstep, hball]
  · rw [tick_ball, hstep, hball]
  · rw [tick_ball, hstep, hball]
    exact hs
  · rw [tick_bricks, hstep]

/-- The state after `lostRun` has the program's constants, the next eighth of
a second loses the ball, and the iteration ends with the ball at (400, 300),
`speedY` still 200 and the same 49 visible bricks. -/
theorem ball_lost_tick_witness :
    (run (some 2) lostRun).paddle.y = 570 ∧ (run (some 2) lostRun).ball.radius = 10 ∧
    (∀ br ∈ (run (some 2) lostRun).bricks, br.y + br.height ≤ 170) ∧
    (ballAtBottomCheck (1 / 8) (run (some 2) lostRun).ball).y -
      (ballAtBottomCheck (1 / 8) (run (some 2) lostRun).ball).radius > 600 ∧
    (run (some 2) lostRun).ball.speedY = 200 ∧
    (tick true false (1 / 8) (run (some 2) lostRun)).ball.x = 400 ∧
    (tick true false (1 / 8) (run (some 2) lostRun)).ball.y = 300 ∧
    (tick true false (1 / 8) (run (some 2) lostRun)).ball.speedY = 200 ∧
    (tick true false (1 / 8) (run (some 2) lostRun)).bricks = (run (some 2) lostRun).bricks ∧
    visibleCount (run (some 2) lostRun).bricks = 49 := by
  have hinv := run_gameInv (some 2) lostRun
  have hfire : (ballAtBottomCheck (1 / 8) (run (some 2) lostRun).ball).y -
      (ballAtBottomCheck (1 / 8) (run (some 2) lostRun).ball).radius > 600 := by decide!
  have hs : (run (some 2) lostRun).ball.speedY = 200 := by decide!
  have h := ball_lost_tick true false (1 / 8) (run (some 2) lostRun) hinv.2.1 hinv.1.1
    hinv.2.2 hfire
  exact ⟨hinv.2.1, hinv.1.1, hinv.2.2, hfire, hs, h.2.2.2.1, h.2.2.2.2.1,
    h.2.2.2.2.2.1.trans hs, h.2.2.2.2.2.2, by decide!⟩

end Breakout
